import Mathlib

/-!
Shallow embedding of the pixels column-chunk writer core
(`src/cpp/pixels-core/lib/writer/ColumnWriter.cpp`) and proofs of the
spec's claims about it.

The repository source under `src/` contains only `ColumnWriter.cpp`; the
collaborators it uses (`ByteBuffer`, the statistics recorders, the
protobuf index messages, `BitUtils::bitWiseCompact`) are modelled from
the contracts the spec gives for them (spec §3 and §6).  The `ColumnWriter`
operations themselves are translated statement by statement from the
C++ source.
-/

namespace Pixels

/-- Byte order flag, mirroring the C++ `ByteOrder` enum
(`PIXELS_LITTLE_ENDIAN` / `PIXELS_BIG_ENDIAN`). -/
inductive ByteOrder where
  | PIXELS_LITTLE_ENDIAN
  | PIXELS_BIG_ENDIAN
deriving DecidableEq, Repr

/-- Modelled from the spec: `ByteOutputBuffer` (§2, §6) — append-only growable
byte buffer with independent read and write cursors.  Bytes are `Nat`s
(values of C++ `uint8_t`); `data` is the backing storage, `readPos` and
`writePos` the two cursors.  `putBytes` writes at the write cursor
(overwriting any stale bytes beyond it, as a rewound C++ buffer would)
and advances it. -/
structure ByteBuffer where
  data : List Nat
  readPos : Nat
  writePos : Nat
deriving DecidableEq, Repr

/-- A freshly allocated (empty) buffer. -/
def ByteBuffer.empty : ByteBuffer := ⟨[], 0, 0⟩

/-- `putBytes(data, n)`: append `bs` at the write cursor and advance it. -/
def ByteBuffer.putBytes (bb : ByteBuffer) (bs : List Nat) : ByteBuffer :=
  { bb with data := bb.data.take bb.writePos ++ bs
            writePos := bb.writePos + bs.length }

/-- `resetPosition()`: rewind both cursors to the start, keeping storage. -/
def ByteBuffer.resetPosition (bb : ByteBuffer) : ByteBuffer :=
  { bb with readPos := 0, writePos := 0 }

/-- `clear()`: release the storage. -/
def ByteBuffer.clear (_ : ByteBuffer) : ByteBuffer := ⟨[], 0, 0⟩

/-- The unconsumed region of the buffer: the bytes between the read cursor
and the write cursor (`data[readPos .. writePos)`). -/
def ByteBuffer.content (bb : ByteBuffer) : List Nat :=
  (bb.data.take bb.writePos).drop bb.readPos

/-- Modelled from the spec: the serialized statistics record
(`pixels::proto::StatisticType`).  Only the field this core manipulates
through the recorder contract (§6) is modelled: the null-presence flag. -/
structure StatisticRecord where
  hasNull : Bool
deriving DecidableEq, Repr

/-- A default-constructed / `Clear()`-ed statistics record. -/
def StatisticRecord.default : StatisticRecord := ⟨false⟩

/-- Modelled from the spec: `StatRecorder` (§2, §6) — accumulates statistics;
capability set {markHasNull, merge, reset, serialize}.  Only the state this
core observes (the hasNull flag) is carried. -/
structure StatRecorder where
  hasNull : Bool
deriving DecidableEq, Repr

/-- A recorder in its empty state. -/
def StatRecorder.empty : StatRecorder := ⟨false⟩

/-- `setHasNull()`: mark the recorder as having seen a null value. -/
def StatRecorder.setHasNull (_ : StatRecorder) : StatRecorder := ⟨true⟩

/-- `merge(other)`: fold another recorder's accumulated state in
(cumulative: the null flag is the disjunction). -/
def StatRecorder.merge (r other : StatRecorder) : StatRecorder :=
  ⟨r.hasNull || other.hasNull⟩

/-- `reset()`: return to the empty state. -/
def StatRecorder.reset (_ : StatRecorder) : StatRecorder := StatRecorder.empty

/-- `serialize()`: produce the statistics record snapshot. -/
def StatRecorder.serialize (r : StatRecorder) : StatisticRecord := ⟨r.hasNull⟩

/-- `pixels::proto::PixelStatistic`: wraps one serialized statistics record. -/
structure PixelStatistic where
  statistic : StatisticRecord
deriving DecidableEq, Repr

/-- `pixels::proto::ColumnChunkIndex` (spec §3): per-chunk metadata record.
Protobuf scalar fields default to `0`/`false`; repeated fields to empty. -/
structure ColumnChunkIndex where
  isNullOffset : Nat
  pixelPositions : List Nat
  pixelStatistics : List PixelStatistic
  littleEndian : Bool
  nullsPadding : Bool
  isNullAlignment : Nat
deriving DecidableEq, Repr

/-- A default-constructed `ColumnChunkIndex` (all protobuf defaults). -/
def ColumnChunkIndex.defaultIndex : ColumnChunkIndex :=
  ⟨0, [], [], false, false, 0⟩

/-- Protobuf `Clear()`: every field back to its default value. -/
def ColumnChunkIndex.clear (_ : ColumnChunkIndex) : ColumnChunkIndex :=
  ColumnChunkIndex.defaultIndex

/-- Split a boolean sequence into groups of at most 8, in order: the
first byte's worth of bits, then the rest. -/
def chunks8 : List Bool → List (List Bool)
  | [] => []
  | [a] => [[a]]
  | [a, b] => [[a, b]]
  | [a, b, c] => [[a, b, c]]
  | [a, b, c, d] => [[a, b, c, d]]
  | [a, b, c, d, e] => [[a, b, c, d, e]]
  | [a, b, c, d, e, f] => [[a, b, c, d, e, f]]
  | [a, b, c, d, e, f, g] => [[a, b, c, d, e, f, g]]
  | a :: b :: c :: d :: e :: f :: g :: h :: rest =>
      [a, b, c, d, e, f, g, h] :: chunks8 rest

/-- Value of one byte whose bit `i` (LSB = bit 0) is the `i`-th boolean:
little-endian bit order. -/
def byteOfBitsLE : List Bool → Nat
  | [] => 0
  | b :: rest => (if b then 1 else 0) + 2 * byteOfBitsLE rest

/-- Value of one byte filled MSB-first: big-endian bit order. -/
def byteOfBitsBE (bits : List Bool) : Nat :=
  bits.foldl (fun acc b => 2 * acc + (if b then 1 else 0)) 0

/-- Modelled from the spec: `BitUtils::bitWiseCompact` (§6) — packs the first
`count` booleans into `ceil(count/8)` bytes, bit order determined by
`byteOrder`.  The C++ source of `BitUtils` is not under `src/`. -/
def bitWiseCompact (values : List Bool) (count : Nat) (byteOrder : ByteOrder) :
    List Nat :=
  (chunks8 (values.take count)).map
    (fun c => match byteOrder with
      | ByteOrder.PIXELS_LITTLE_ENDIAN => byteOfBitsLE c
      | ByteOrder.PIXELS_BIG_ENDIAN => byteOfBitsBE c)

/-- The `ColumnWriter` state (members per `ColumnWriter.cpp` / spec §3).
`pixelStride`, `encodingLevel`, `byteOrder`, `nullsPadding` are set by the
constructor; `isNull` is the per-pixel null-presence boolean buffer of
length `pixelStride`; the remaining fields are the mutable bookkeeping
the lifecycle operations manipulate.  The process-wide constant
`ISNULL_ALIGNMENT` is passed to `flush` and the constructor as an
explicit parameter `align`. -/
structure ColumnWriter where
  pixelStride : Nat
  encodingLevel : Nat
  byteOrder : ByteOrder
  nullsPadding : Bool
  isNull : List Bool
  outputStream : ByteBuffer
  isNullStream : ByteBuffer
  columnChunkIndex : ColumnChunkIndex
  columnChunkStat : StatisticRecord
  pixelStatRecorder : StatRecorder
  columnChunkStatRecorder : StatRecorder
  lastPixelPosition : Nat
  curPixelPosition : Nat
  curPixelEleIndex : Nat
  curPixelVectorIndex : Nat
  curPixelIsNullIndex : Nat
  hasNull : Bool
deriving DecidableEq, Repr

namespace ColumnWriter

/-- The constructor `ColumnWriter::ColumnWriter` (lines 93-108): allocates
empty buffers and an empty index record, then populates the index's three
chunk-wide flags.  `align` stands for the process-wide `ISNULL_ALIGNMENT`
constant that the constructor stores into the index. -/
def init (align pixelStride encodingLevel : Nat) (byteOrder : ByteOrder) :
    ColumnWriter :=
  { pixelStride := pixelStride
    encodingLevel := encodingLevel
    byteOrder := byteOrder
    nullsPadding := false
    isNull := List.replicate pixelStride false
    outputStream := ByteBuffer.empty
    isNullStream := ByteBuffer.empty
    columnChunkIndex :=
      { ColumnChunkIndex.defaultIndex with
        littleEndian := byteOrder = ByteOrder.PIXELS_LITTLE_ENDIAN
        nullsPadding := false
        isNullAlignment := align }
    columnChunkStat := StatisticRecord.default
    pixelStatRecorder := StatRecorder.empty
    columnChunkStatRecorder := StatRecorder.empty
    lastPixelPosition := 0
    curPixelPosition := 0
    curPixelEleIndex := 0
    curPixelVectorIndex := 0
    curPixelIsNullIndex := 0
    hasNull := false }

/-- `ColumnWriter::newPixel` (lines 51-73), translated statement by
statement: pack and append the null bitmap if the pixel had nulls and mark
the pixel recorder; capture the value buffer's write offset; zero the
per-pixel counters; merge pixel statistics into the chunk recorder; append
the previous pixel position and the serialized pixel statistics to the
index; advance `lastPixelPosition`; reset the pixel recorder and the
`hasNull` flag. -/
def newPixel (w : ColumnWriter) : ColumnWriter :=
  let w1 :=
    if w.hasNull then
      { w with
        isNullStream := w.isNullStream.putBytes
          (bitWiseCompact w.isNull w.curPixelIsNullIndex w.byteOrder)
        pixelStatRecorder := w.pixelStatRecorder.setHasNull }
    else w
  let curPixelPosition := w1.outputStream.writePos
  let pixelStat : PixelStatistic := ⟨w1.pixelStatRecorder.serialize⟩
  { w1 with
    curPixelPosition := curPixelPosition
    curPixelEleIndex := 0
    curPixelVectorIndex := 0
    curPixelIsNullIndex := 0
    columnChunkStatRecorder :=
      w1.columnChunkStatRecorder.merge w1.pixelStatRecorder
    columnChunkIndex :=
      { w1.columnChunkIndex with
        pixelPositions := w1.columnChunkIndex.pixelPositions
          ++ [w1.lastPixelPosition]
        pixelStatistics := w1.columnChunkIndex.pixelStatistics
          ++ [pixelStat] }
    lastPixelPosition := curPixelPosition
    pixelStatRecorder := w1.pixelStatRecorder.reset
    hasNull := false }

/-- The intermediate state of `newPixel` after the conditional
bitmap-packing step (the `if (hasNull)` block, lines 52-56). -/
def newPixelPacked (w : ColumnWriter) : ColumnWriter :=
  if w.hasNull then
    { w with
      isNullStream := w.isNullStream.putBytes
        (bitWiseCompact w.isNull w.curPixelIsNullIndex w.byteOrder)
      pixelStatRecorder := w.pixelStatRecorder.setHasNull }
  else w

/-- The opening conditional of `ColumnWriter::flush` (lines 38-40): force a
`newPixel` transition when a partial pixel is pending. -/
def flushPre (w : ColumnWriter) : ColumnWriter :=
  if w.curPixelEleIndex > 0 then w.newPixel else w

/-- `ColumnWriter::flush` (lines 37-49): close a pending partial pixel
(`flushPre`), pad the value buffer up to the alignment boundary with zero
bytes from the static padding buffer when `align` is nonzero and the offset
is unaligned, record the resulting offset as `isNullOffset`, then append
the null-bitmap buffer's unconsumed bytes to the value buffer.  `align` is
the process-wide `ISNULL_ALIGNMENT` constant. -/
def flush (align : Nat) (w : ColumnWriter) : ColumnWriter :=
  let w1 := w.flushPre
  let isNullOffset0 := w1.outputStream.writePos
  let padBytes := List.replicate (align - isNullOffset0 % align) 0
  let w2 :=
    if align ≠ 0 ∧ isNullOffset0 % align ≠ 0 then
      { w1 with outputStream := w1.outputStream.putBytes padBytes }
    else w1
  let isNullOffset :=
    if align ≠ 0 ∧ isNullOffset0 % align ≠ 0 then
      isNullOffset0 + (align - isNullOffset0 % align)
    else isNullOffset0
  let w3 := { w2 with columnChunkIndex :=
      { w2.columnChunkIndex with isNullOffset := isNullOffset } }
  let bitmapBytes :=
    (w3.isNullStream.data.drop w3.isNullStream.readPos).take
      (w3.isNullStream.writePos - w3.isNullStream.readPos)
  { w3 with outputStream := w3.outputStream.putBytes bitmapBytes }

/-- `ColumnWriter::reset` (lines 75-84): zero the two position fields,
`Clear()` the index record and the standalone chunk-stat record, reset both
recorders, rewind both buffers' cursors. -/
def reset (w : ColumnWriter) : ColumnWriter :=
  { w with
    lastPixelPosition := 0
    curPixelPosition := 0
    columnChunkIndex := w.columnChunkIndex.clear
    columnChunkStat := StatisticRecord.default
    pixelStatRecorder := w.pixelStatRecorder.reset
    columnChunkStatRecorder := w.columnChunkStatRecorder.reset
    outputStream := w.outputStream.resetPosition
    isNullStream := w.isNullStream.resetPosition }

/-- `ColumnWriter::close` (lines 86-89): release both buffers. -/
def close (w : ColumnWriter) : ColumnWriter :=
  { w with
    outputStream := w.outputStream.clear
    isNullStream := w.isNullStream.clear }

/-- `ColumnWriter::getColumnChunkContent` (lines 13-17): a copy of the value
buffer's bytes between the read cursor and the write cursor.  The C++
method is `const`; it is embedded as a pure function of the writer. -/
def getColumnChunkContent (w : ColumnWriter) : List Nat :=
  (w.outputStream.data.take w.outputStream.writePos).drop
    w.outputStream.readPos

/-- `ColumnWriter::getColumnChunkSize` (lines 19-21): the distance between
the write cursor and the read cursor.  Also a `const` method, embedded as a
pure function. -/
def getColumnChunkSize (w : ColumnWriter) : Nat :=
  w.outputStream.writePos - w.outputStream.readPos

/-- Modelled from the spec: the generic per-row work a typed subclass does
before the pixel boundary (§2, §4.1) — record the row's null flag into the
null-presence buffer, set `hasNull` when the row is null, advance the
per-pixel counters, and append the row's serialized value bytes to the
value buffer.  The subclasses' sources are not under `src/`. -/
def addRow (w : ColumnWriter) (nullFlag : Bool) (valueBytes : List Nat) :
    ColumnWriter :=
  { w with
    isNull := w.isNull.set w.curPixelIsNullIndex nullFlag
    hasNull := w.hasNull || nullFlag
    curPixelIsNullIndex := w.curPixelIsNullIndex + 1
    curPixelEleIndex := w.curPixelEleIndex + 1
    outputStream := w.outputStream.putBytes valueBytes }

end ColumnWriter

/-- One externally triggered operation on a writer: a row arrival from the
typed subclass, or a lifecycle call. -/
inductive Op where
  | addRow (nullFlag : Bool) (valueBytes : List Nat)
  | newPixel
  | flush
  | reset
  | close
deriving DecidableEq, Repr

/-- Apply one operation to the writer (`align` is the process-wide
`ISNULL_ALIGNMENT` constant). -/
def step (align : Nat) (w : ColumnWriter) : Op → ColumnWriter
  | Op.addRow nullFlag valueBytes => w.addRow nullFlag valueBytes
  | Op.newPixel => w.newPixel
  | Op.flush => w.flush align
  | Op.reset => w.reset
  | Op.close => w.close

/-- Run a sequence of operations left to right. -/
def runOps (align : Nat) (ops : List Op) (w : ColumnWriter) : ColumnWriter :=
  ops.foldl (step align) w

/-- The value-buffer write offsets captured at the pixel boundaries an
operation performs: a `newPixel` call records the current write offset,
and `flush` does so when it forces a `newPixel` for a pending partial
pixel.  (`newPixel` itself never writes to the value buffer, so the offset
at its entry is the boundary offset it stores into `curPixelPosition`.) -/
def opBoundaries (w : ColumnWriter) : Op → List Nat
  | Op.newPixel => [w.outputStream.writePos]
  | Op.flush => if w.curPixelEleIndex > 0 then [w.outputStream.writePos] else []
  | _ => []

/-- Run a sequence of operations, also collecting the pixel-boundary write
offsets in the order the boundaries happen. -/
def runCollect (align : Nat) (ops : List Op) (w : ColumnWriter)
    (acc : List Nat) : ColumnWriter × List Nat :=
  ops.foldl (fun p op => (step align p.1 op, p.2 ++ opBoundaries p.1 op))
    (w, acc)

/-! ### Helper lemmas -/

theorem aux_chunks8_length : ∀ l : List Bool,
    (chunks8 l).length = (l.length + 7) / 8
  | [] => by simp [chunks8]
  | [_] => by simp [chunks8]
  | [_, _] => by simp [chunks8]
  | [_, _, _] => by simp [chunks8]
  | [_, _, _, _] => by simp [chunks8]
  | [_, _, _, _, _] => by simp [chunks8]
  | [_, _, _, _, _, _] => by simp [chunks8]
  | [_, _, _, _, _, _, _] => by simp [chunks8]
  | _ :: _ :: _ :: _ :: _ :: _ :: _ :: _ :: rest => by
    have ih := aux_chunks8_length rest
    simp only [chunks8, List.length_cons] at ih ⊢
    omega

theorem aux_bitWiseCompact_length (values : List Bool) (count : Nat)
    (byteOrder : ByteOrder) (h : count ≤ values.length) :
    (bitWiseCompact values count byteOrder).length = (count + 7) / 8 := by
  simp only [bitWiseCompact, List.length_map, aux_chunks8_length,
    List.length_take]
  omega

theorem aux_putBytes_data (bb : ByteBuffer) (bs : List Nat)
    (h : bb.writePos ≤ bb.data.length) :
    (bb.putBytes bs).data = bb.data.take bb.writePos ++ bs ∧
    (bb.putBytes bs).data.length = (bb.putBytes bs).writePos := by
  refine ⟨rfl, ?_⟩
  simp only [ByteBuffer.putBytes, List.length_append, List.length_take]
  omega

theorem aux_content_putBytes (bb : ByteBuffer) (bs : List Nat)
    (hr : bb.readPos ≤ bb.writePos) (hw : bb.writePos ≤ bb.data.length) :
    (bb.putBytes bs).content = bb.content ++ bs := by
  have hlen : (bb.data.take bb.writePos).length = bb.writePos := by
    simp only [List.length_take]; omega
  simp only [ByteBuffer.content, ByteBuffer.putBytes]
  rw [List.take_of_length_le (by simp only [List.length_append, hlen]; omega),
    List.drop_append_of_le_length (by omega)]

namespace ColumnWriter

theorem aux_newPixel_eq (w : ColumnWriter) :
    w.newPixel =
      { w.newPixelPacked with
        curPixelPosition := w.outputStream.writePos
        curPixelEleIndex := 0
        curPixelVectorIndex := 0
        curPixelIsNullIndex := 0
        columnChunkStatRecorder := w.columnChunkStatRecorder.merge
          (w.newPixelPacked.pixelStatRecorder)
        columnChunkIndex :=
          { w.columnChunkIndex with
            pixelPositions := w.columnChunkIndex.pixelPositions
              ++ [w.lastPixelPosition]
            pixelStatistics := w.columnChunkIndex.pixelStatistics
              ++ [⟨w.newPixelPacked.pixelStatRecorder.serialize⟩] }
        lastPixelPosition := w.outputStream.writePos
        pixelStatRecorder := StatRecorder.empty
        hasNull := false } := by
  rw [newPixel, newPixelPacked]
  by_cases h : w.hasNull = true
  · simp only [h, if_true, StatRecorder.reset]
  · simp only [eq_false_of_ne_true h, if_false, Bool.false_eq_true,
      StatRecorder.reset]

theorem aux_newPixel_outputStream (w : ColumnWriter) :
    w.newPixel.outputStream = w.outputStream := by
  rw [aux_newPixel_eq, newPixelPacked]
  by_cases h : w.hasNull = true <;> simp [h]

theorem aux_newPixel_pixelPositions (w : ColumnWriter) :
    w.newPixel.columnChunkIndex.pixelPositions =
      w.columnChunkIndex.pixelPositions ++ [w.lastPixelPosition] := by
  rw [aux_newPixel_eq]

theorem aux_newPixel_pixelStatistics (w : ColumnWriter) :
    w.newPixel.columnChunkIndex.pixelStatistics =
      w.columnChunkIndex.pixelStatistics
        ++ [⟨w.newPixelPacked.pixelStatRecorder.serialize⟩] := by
  rw [aux_newPixel_eq]

theorem aux_newPixel_isNullOffset (w : ColumnWriter) :
    w.newPixel.columnChunkIndex.isNullOffset =
      w.columnChunkIndex.isNullOffset := by
  rw [aux_newPixel_eq]

theorem aux_newPixel_lastPixelPosition (w : ColumnWriter) :
    w.newPixel.lastPixelPosition = w.outputStream.writePos := by
  rw [aux_newPixel_eq]

theorem aux_newPixel_chunkRecorder (w : ColumnWriter) :
    w.newPixel.columnChunkStatRecorder =
      w.columnChunkStatRecorder.merge w.newPixelPacked.pixelStatRecorder := by
  rw [aux_newPixel_eq]

theorem aux_newPixelPacked_recorder (w : ColumnWriter) :
    w.newPixelPacked.pixelStatRecorder =
      if w.hasNull then w.pixelStatRecorder.setHasNull
      else w.pixelStatRecorder := by
  rw [newPixelPacked]
  by_cases h : w.hasNull = true <;> simp [h]

theorem aux_newPixel_isNullStream (w : ColumnWriter) :
    w.newPixel.isNullStream =
      if w.hasNull then
        w.isNullStream.putBytes
          (bitWiseCompact w.isNull w.curPixelIsNullIndex w.byteOrder)
      else w.isNullStream := by
  rw [aux_newPixel_eq, newPixelPacked]
  by_cases h : w.hasNull = true <;> simp [h]

theorem aux_flushPre_outputStream (w : ColumnWriter) :
    w.flushPre.outputStream = w.outputStream := by
  rw [flushPre]
  by_cases h : w.curPixelEleIndex > 0 <;>
    simp [h, aux_newPixel_outputStream]

theorem aux_flush_eq (align : Nat) (w : ColumnWriter) :
    w.flush align =
      { w.flushPre with
        outputStream :=
          ((if align ≠ 0 ∧ w.outputStream.writePos % align ≠ 0 then
              w.flushPre.outputStream.putBytes
                (List.replicate
                  (align - w.outputStream.writePos % align) 0)
            else w.flushPre.outputStream).putBytes
            ((w.flushPre.isNullStream.data.drop
                w.flushPre.isNullStream.readPos).take
              (w.flushPre.isNullStream.writePos -
                w.flushPre.isNullStream.readPos)))
        columnChunkIndex :=
          { w.flushPre.columnChunkIndex with
            isNullOffset :=
              if align ≠ 0 ∧ w.outputStream.writePos % align ≠ 0 then
                w.outputStream.writePos +
                  (align - w.outputStream.writePos % align)
              else w.outputStream.writePos } } := by
  simp only [flush, aux_flushPre_outputStream]
  by_cases h2 : align ≠ 0 ∧ w.outputStream.writePos % align ≠ 0
  · simp only [if_pos h2, aux_flushPre_outputStream]
  · simp only [if_neg h2, aux_flushPre_outputStream]

theorem aux_flush_pixelPositions (align : Nat) (w : ColumnWriter) :
    (w.flush align).columnChunkIndex.pixelPositions =
      w.flushPre.columnChunkIndex.pixelPositions := by
  rw [aux_flush_eq]

theorem aux_flush_pixelStatistics (align : Nat) (w : ColumnWriter) :
    (w.flush align).columnChunkIndex.pixelStatistics =
      w.flushPre.columnChunkIndex.pixelStatistics := by
  rw [aux_flush_eq]

theorem aux_flush_lastPixelPosition (align : Nat) (w : ColumnWriter) :
    (w.flush align).lastPixelPosition = w.flushPre.lastPixelPosition := by
  rw [aux_flush_eq]

theorem aux_flush_chunkRecorder (align : Nat) (w : ColumnWriter) :
    (w.flush align).columnChunkStatRecorder =
      w.flushPre.columnChunkStatRecorder := by
  rw [aux_flush_eq]

theorem aux_flush_curPixelEleIndex (align : Nat) (w : ColumnWriter) :
    (w.flush align).curPixelEleIndex = w.flushPre.curPixelEleIndex := by
  rw [aux_flush_eq]

theorem aux_flushPre_pixelPositions (w : ColumnWriter) :
    w.flushPre.columnChunkIndex.pixelPositions =
      if w.curPixelEleIndex > 0 then
        w.columnChunkIndex.pixelPositions ++ [w.lastPixelPosition]
      else w.columnChunkIndex.pixelPositions := by
  rw [flushPre]
  by_cases h : w.curPixelEleIndex > 0 <;>
    simp [h, aux_newPixel_pixelPositions]

theorem aux_flushPre_pixelStatistics (w : ColumnWriter) :
    w.flushPre.columnChunkIndex.pixelStatistics =
      if w.curPixelEleIndex > 0 then
        w.columnChunkIndex.pixelStatistics
          ++ [⟨w.newPixelPacked.pixelStatRecorder.serialize⟩]
      else w.columnChunkIndex.pixelStatistics := by
  rw [flushPre]
  by_cases h : w.curPixelEleIndex > 0 <;>
    simp [h, aux_newPixel_pixelStatistics]

theorem aux_flushPre_lastPixelPosition (w : ColumnWriter) :
    w.flushPre.lastPixelPosition =
      if w.curPixelEleIndex > 0 then w.outputStream.writePos
      else w.lastPixelPosition := by
  rw [flushPre]
  by_cases h : w.curPixelEleIndex > 0 <;>
    simp [h, aux_newPixel_lastPixelPosition]

theorem aux_flushPre_chunkRecorder (w : ColumnWriter) :
    w.flushPre.columnChunkStatRecorder =
      if w.curPixelEleIndex > 0 then
        w.columnChunkStatRecorder.merge w.newPixelPacked.pixelStatRecorder
      else w.columnChunkStatRecorder := by
  rw [flushPre]
  by_cases h : w.curPixelEleIndex > 0 <;>
    simp [h, aux_newPixel_chunkRecorder]

theorem aux_flushPre_curPixelEleIndex (w : ColumnWriter) :
    w.flushPre.curPixelEleIndex =
      if w.curPixelEleIndex > 0 then 0 else w.curPixelEleIndex := by
  rw [flushPre]
  by_cases h : w.curPixelEleIndex > 0 <;> simp [h, aux_newPixel_eq]

theorem aux_flush_isNullOffset (align : Nat) (w : ColumnWriter) :
    (w.flush align).columnChunkIndex.isNullOffset =
      if align ≠ 0 ∧ w.outputStream.writePos % align ≠ 0 then
        w.outputStream.writePos +
          (align - w.outputStream.writePos % align)
      else w.outputStream.writePos := by
  rw [aux_flush_eq]

theorem aux_flush_isNullOffset_pad (align : Nat) (w : ColumnWriter) :
    (w.flush align).columnChunkIndex.isNullOffset =
      w.outputStream.writePos +
        (if align = 0 ∨ w.outputStream.writePos % align = 0 then 0
         else align - w.outputStream.writePos % align) := by
  rw [aux_flush_isNullOffset]
  by_cases hc : align ≠ 0 ∧ w.outputStream.writePos % align ≠ 0
  · rw [if_pos hc, if_neg (by tauto)]
  · rw [if_neg hc, if_pos (by tauto)]
    omega

end ColumnWriter

theorem aux_runOps_cons (align : Nat) (op : Op) (ops : List Op)
    (w : ColumnWriter) :
    runOps align (op :: ops) w = runOps align ops (step align w op) := rfl

theorem aux_runCollect_cons (align : Nat) (op : Op) (ops : List Op)
    (w : ColumnWriter) (acc : List Nat) :
    runCollect align (op :: ops) w acc =
      runCollect align ops (step align w op)
        (acc ++ opBoundaries w op) := rfl

/-- The one-pixel-lag invariant: at all times the recorded pixel positions
followed by `lastPixelPosition` are `0` followed by the boundary offsets
collected so far. -/
theorem aux_runCollect_lag (align : Nat) (ops : List Op) :
    ∀ (w : ColumnWriter) (acc : List Nat), Op.reset ∉ ops →
      w.columnChunkIndex.pixelPositions ++ [w.lastPixelPosition] =
        0 :: acc →
      (runCollect align ops w acc).1.columnChunkIndex.pixelPositions ++
          [(runCollect align ops w acc).1.lastPixelPosition] =
        0 :: (runCollect align ops w acc).2 := by
  induction ops with
  | nil => intro w acc _ h; exact h
  | cons op ops ih =>
    intro w acc hmem h
    rw [aux_runCollect_cons]
    have hmem' : Op.reset ∉ ops := by
      intro hc; exact hmem (List.mem_cons_of_mem _ hc)
    apply ih _ _ hmem'
    cases op with
    | addRow f bs =>
      simpa [step, opBoundaries, ColumnWriter.addRow] using h
    | newPixel =>
      simp only [step, opBoundaries,
        ColumnWriter.aux_newPixel_pixelPositions,
        ColumnWriter.aux_newPixel_lastPixelPosition]
      rw [h, List.cons_append]
    | flush =>
      by_cases hc : w.curPixelEleIndex > 0
      · simp only [step, opBoundaries, if_pos hc,
          ColumnWriter.aux_flush_pixelPositions,
          ColumnWriter.aux_flush_lastPixelPosition,
          ColumnWriter.aux_flushPre_pixelPositions,
          ColumnWriter.aux_flushPre_lastPixelPosition]
        rw [h, List.cons_append]
      · simp only [step, opBoundaries, if_neg hc,
          ColumnWriter.aux_flush_pixelPositions,
          ColumnWriter.aux_flush_lastPixelPosition,
          ColumnWriter.aux_flushPre_pixelPositions,
          ColumnWriter.aux_flushPre_lastPixelPosition,
          List.append_nil]
        exact h
    | reset => exact absurd (List.mem_cons_self _ _) hmem
    | close =>
      simpa [step, opBoundaries, ColumnWriter.close] using h

/-- Index parity: both index sequences always have equal length. -/
theorem aux_runOps_parity (align : Nat) (ops : List Op) :
    ∀ w : ColumnWriter,
      w.columnChunkIndex.pixelPositions.length =
        w.columnChunkIndex.pixelStatistics.length →
      (runOps align ops w).columnChunkIndex.pixelPositions.length =
        (runOps align ops w).columnChunkIndex.pixelStatistics.length := by
  induction ops with
  | nil => intro w h; exact h
  | cons op ops ih =>
    intro w h
    rw [aux_runOps_cons]
    apply ih
    cases op with
    | addRow f bs => simpa [step, ColumnWriter.addRow] using h
    | newPixel =>
      simp only [step, ColumnWriter.aux_newPixel_pixelPositions,
        ColumnWriter.aux_newPixel_pixelStatistics, List.length_append,
        List.length_cons, List.length_nil, h]
    | flush =>
      by_cases hc : w.curPixelEleIndex > 0 <;>
        simp only [step, ColumnWriter.aux_flush_pixelPositions,
          ColumnWriter.aux_flush_pixelStatistics,
          ColumnWriter.aux_flushPre_pixelPositions,
          ColumnWriter.aux_flushPre_pixelStatistics, if_pos, if_neg,
          hc, if_true, if_false, List.length_append, List.length_cons,
          List.length_nil, h]
    | reset =>
      simp [step, ColumnWriter.reset, ColumnChunkIndex.clear,
        ColumnChunkIndex.defaultIndex]
    | close => simpa [step, ColumnWriter.close] using h

/-- Once the chunk-level recorder has seen a null it keeps reporting it
for the rest of a reset-free run. -/
theorem aux_runOps_hasNull_mono (align : Nat) (ops : List Op) :
    ∀ w : ColumnWriter, Op.reset ∉ ops →
      w.columnChunkStatRecorder.hasNull = true →
      (runOps align ops w).columnChunkStatRecorder.hasNull = true := by
  induction ops with
  | nil => intro w _ h; exact h
  | cons op ops ih =>
    intro w hmem h
    rw [aux_runOps_cons]
    have hmem' : Op.reset ∉ ops := by
      intro hc; exact hmem (List.mem_cons_of_mem _ hc)
    apply ih _ hmem'
    cases op with
    | addRow f bs => simpa [step, ColumnWriter.addRow] using h
    | newPixel =>
      simp [step, ColumnWriter.aux_newPixel_chunkRecorder,
        StatRecorder.merge, h]
    | flush =>
      by_cases hc : w.curPixelEleIndex > 0
      · simp only [step, ColumnWriter.aux_flush_chunkRecorder,
          ColumnWriter.aux_flushPre_chunkRecorder, if_pos hc]
        simp [StatRecorder.merge, h]
      · simp only [step, ColumnWriter.aux_flush_chunkRecorder,
          ColumnWriter.aux_flushPre_chunkRecorder, if_neg hc]
        exact h
    | reset => exact absurd (List.mem_cons_self _ _) hmem
    | close => simpa [step, ColumnWriter.close] using h

/-- If no null row ever arrives, neither recorder nor the `hasNull` flag
ever turns on. -/
theorem aux_runOps_noNull (align : Nat) (ops : List Op) :
    ∀ w : ColumnWriter, (∀ bs, Op.addRow true bs ∉ ops) →
      w.columnChunkStatRecorder.hasNull = false →
      w.pixelStatRecorder.hasNull = false → w.hasNull = false →
      (runOps align ops w).columnChunkStatRecorder.hasNull = false ∧
        (runOps align ops w).pixelStatRecorder.hasNull = false ∧
        (runOps align ops w).hasNull = false := by
  induction ops with
  | nil => intro w _ h1 h2 h3; exact ⟨h1, h2, h3⟩
  | cons op ops ih =>
    intro w hmem h1 h2 h3
    rw [aux_runOps_cons]
    have hmem' : ∀ bs, Op.addRow true bs ∉ ops := by
      intro bs hc; exact hmem bs (List.mem_cons_of_mem _ hc)
    cases op with
    | addRow f bs =>
      have hf : f = false := by
        cases f
        · rfl
        · exact absurd (List.mem_cons_self _ _) (hmem bs)
      subst hf
      exact ih _ hmem' (by simpa [step, ColumnWriter.addRow] using h1)
        (by simpa [step, ColumnWriter.addRow] using h2)
        (by simp [step, ColumnWriter.addRow, h3])
    | newPixel =>
      apply ih _ hmem'
      · simp [step, ColumnWriter.aux_newPixel_chunkRecorder,
          ColumnWriter.aux_newPixelPacked_recorder, h1, h2, h3,
          StatRecorder.merge]
      · simp [step, ColumnWriter.aux_newPixel_eq, StatRecorder.empty]
      · simp [step, ColumnWriter.aux_newPixel_eq]
    | flush =>
      apply ih _ hmem'
      · by_cases hc : w.curPixelEleIndex > 0
        · simp only [step, ColumnWriter.aux_flush_chunkRecorder,
            ColumnWriter.aux_flushPre_chunkRecorder, if_pos hc,
            ColumnWriter.aux_newPixelPacked_recorder]
          simp [h1, h2, h3, StatRecorder.merge]
        · simp only [step, ColumnWriter.aux_flush_chunkRecorder,
            ColumnWriter.aux_flushPre_chunkRecorder, if_neg hc]
          exact h1
      · rw [show (step align w Op.flush).pixelStatRecorder =
            w.flushPre.pixelStatRecorder by
            rw [step, ColumnWriter.aux_flush_eq]]
        rw [ColumnWriter.flushPre]
        by_cases hc : w.curPixelEleIndex > 0
        · simp [hc, ColumnWriter.aux_newPixel_eq, StatRecorder.empty]
        · simp [hc, h2]
      · rw [show (step align w Op.flush).hasNull = w.flushPre.hasNull by
            rw [step, ColumnWriter.aux_flush_eq]]
        rw [ColumnWriter.flushPre]
        by_cases hc : w.curPixelEleIndex > 0
        · simp [hc, ColumnWriter.aux_newPixel_eq]
        · simp [hc, h3]
    | reset =>
      exact ih _ hmem' (by simp [step, ColumnWriter.reset,
          StatRecorder.reset, StatRecorder.empty])
        (by simp [step, ColumnWriter.reset, StatRecorder.reset,
          StatRecorder.empty])
        (by simp [step, ColumnWriter.reset, h3])
    | close =>
      exact ih _ hmem' (by simpa [step, ColumnWriter.close] using h1)
        (by simpa [step, ColumnWriter.close] using h2)
        (by simp [step, ColumnWriter.close, h3])

/-! ### Claim theorems -/

/-- C1: every `newPixel` call appends the pre-call value of
`lastPixelPosition` (the boundary before the just-finished pixel) to
`pixelPositions` and only then sets `lastPixelPosition` to the current
value-buffer write offset; consequently, over any reset-free run from a
fresh writer, the recorded positions followed by `lastPixelPosition` are
`0` followed by the write offsets captured at the successive pixel
boundaries — i.e. `pixelPositions[i]` is the offset of boundary `i-1`,
with the first recorded position being `0`. -/
theorem c1_pixel_position_lag (align : Nat) :
    (∀ w : ColumnWriter,
      w.newPixel.columnChunkIndex.pixelPositions =
          w.columnChunkIndex.pixelPositions ++ [w.lastPixelPosition] ∧
        w.newPixel.lastPixelPosition = w.outputStream.writePos) ∧
    (∀ (stride el : Nat) (bo : ByteOrder) (ops : List Op),
      Op.reset ∉ ops →
      (runCollect align ops (ColumnWriter.init align stride el bo)
            []).1.columnChunkIndex.pixelPositions ++
          [(runCollect align ops (ColumnWriter.init align stride el bo)
            []).1.lastPixelPosition] =
        0 :: (runCollect align ops (ColumnWriter.init align stride el bo)
            []).2) := by
  constructor
  · intro w
    exact ⟨ColumnWriter.aux_newPixel_pixelPositions w,
      ColumnWriter.aux_newPixel_lastPixelPosition w⟩
  · intro stride el bo ops hmem
    exact aux_runCollect_lag align ops _ [] hmem rfl

/-- C1 witness: the lag invariant evaluated on a concrete run
(stride 2, one full pixel, one partial pixel closed by `flush`). -/
theorem c1_pixel_position_lag_witness :
    Op.reset ∉ [Op.addRow false [1], Op.addRow true [2], Op.newPixel,
        Op.addRow false [3], Op.flush] ∧
      (runCollect 4 [Op.addRow false [1], Op.addRow true [2], Op.newPixel,
            Op.addRow false [3], Op.flush]
          (ColumnWriter.init 4 2 0 ByteOrder.PIXELS_LITTLE_ENDIAN)
          []).1.columnChunkIndex.pixelPositions ++
        [(runCollect 4 [Op.addRow false [1], Op.addRow true [2], Op.newPixel,
            Op.addRow false [3], Op.flush]
          (ColumnWriter.init 4 2 0 ByteOrder.PIXELS_LITTLE_ENDIAN)
          []).1.lastPixelPosition] =
      0 :: (runCollect 4 [Op.addRow false [1], Op.addRow true [2],
            Op.newPixel, Op.addRow false [3], Op.flush]
          (ColumnWriter.init 4 2 0 ByteOrder.PIXELS_LITTLE_ENDIAN) []).2 :=
  ⟨by decide,
    (c1_pixel_position_lag 4).2 2 0 ByteOrder.PIXELS_LITTLE_ENDIAN _
      (by decide)⟩

/-- C3: when the finished pixel had no nulls, `newPixel` leaves the
null-bitmap buffer untouched; when it had at least one null, `newPixel`
appends to it exactly the bit-packed bitmap of the `n` rows written so far
(`n = curPixelIsNullIndex ≤ pixelStride`), which is `ceil(n/8)` bytes in
the configured byte order. -/
theorem c3_bitmap_omission (w : ColumnWriter)
    (hlen : w.isNull.length = w.pixelStride)
    (hidx : w.curPixelIsNullIndex ≤ w.pixelStride) :
    (w.hasNull = false → w.newPixel.isNullStream = w.isNullStream) ∧
    (w.hasNull = true →
      w.newPixel.isNullStream =
          w.isNullStream.putBytes
            (bitWiseCompact w.isNull w.curPixelIsNullIndex w.byteOrder) ∧
        (bitWiseCompact w.isNull w.curPixelIsNullIndex w.byteOrder).length =
          (w.curPixelIsNullIndex + 7) / 8) := by
  constructor
  · intro h
    rw [ColumnWriter.aux_newPixel_isNullStream]
    simp [h]
  · intro h
    refine ⟨?_, aux_bitWiseCompact_length _ _ _ (by omega)⟩
    rw [ColumnWriter.aux_newPixel_isNullStream]
    simp [h]

/-- C3 witness: a stride-2 writer with one null row among one row written;
the packed segment is one byte. -/
theorem c3_bitmap_omission_witness :
    ((ColumnWriter.init 4 2 0
        ByteOrder.PIXELS_LITTLE_ENDIAN).addRow true [9]).isNull.length =
      ((ColumnWriter.init 4 2 0
        ByteOrder.PIXELS_LITTLE_ENDIAN).addRow true [9]).pixelStride ∧
    ((ColumnWriter.init 4 2 0
        ByteOrder.PIXELS_LITTLE_ENDIAN).addRow true
          [9]).curPixelIsNullIndex ≤
      ((ColumnWriter.init 4 2 0
        ByteOrder.PIXELS_LITTLE_ENDIAN).addRow true [9]).pixelStride ∧
    (((ColumnWriter.init 4 2 0
          ByteOrder.PIXELS_LITTLE_ENDIAN).addRow true [9]).hasNull = true →
      ((ColumnWriter.init 4 2 0
          ByteOrder.PIXELS_LITTLE_ENDIAN).addRow true
            [9]).newPixel.isNullStream =
          (((ColumnWriter.init 4 2 0
            ByteOrder.PIXELS_LITTLE_ENDIAN).addRow true
              [9]).isNullStream.putBytes
            (bitWiseCompact
              (((ColumnWriter.init 4 2 0
                ByteOrder.PIXELS_LITTLE_ENDIAN).addRow true [9]).isNull)
              (((ColumnWriter.init 4 2 0
                ByteOrder.PIXELS_LITTLE_ENDIAN).addRow true
                  [9]).curPixelIsNullIndex)
              (((ColumnWriter.init 4 2 0
                ByteOrder.PIXELS_LITTLE_ENDIAN).addRow true
                  [9]).byteOrder))) ∧
        (bitWiseCompact
            (((ColumnWriter.init 4 2 0
              ByteOrder.PIXELS_LITTLE_ENDIAN).addRow true [9]).isNull)
            (((ColumnWriter.init 4 2 0
              ByteOrder.PIXELS_LITTLE_ENDIAN).addRow true
                [9]).curPixelIsNullIndex)
            (((ColumnWriter.init 4 2 0
              ByteOrder.PIXELS_LITTLE_ENDIAN).addRow true
                [9]).byteOrder)).length =
          ((((ColumnWriter.init 4 2 0
            ByteOrder.PIXELS_LITTLE_ENDIAN).addRow true
              [9]).curPixelIsNullIndex) + 7) / 8) :=
  ⟨by decide, by decide,
    (c3_bitmap_omission _ (by decide) (by decide)).2⟩

/-- C5: the index parity invariant holds after every run; `newPixel`
appends exactly one entry to each index sequence; `addRow` and `close`
leave the index record unchanged; `flush` grows both sequences by one
exactly when it performs its internal `newPixel` transition; `reset`
clears both sequences. -/
theorem c5_index_parity (align : Nat) :
    (∀ (stride el : Nat) (bo : ByteOrder) (ops : List Op),
      (runOps align ops (ColumnWriter.init align stride el
          bo)).columnChunkIndex.pixelPositions.length =
        (runOps align ops (ColumnWriter.init align stride el
          bo)).columnChunkIndex.pixelStatistics.length) ∧
    (∀ w : ColumnWriter,
      w.newPixel.columnChunkIndex.pixelPositions.length =
          w.columnChunkIndex.pixelPositions.length + 1 ∧
        w.newPixel.columnChunkIndex.pixelStatistics.length =
          w.columnChunkIndex.pixelStatistics.length + 1) ∧
    (∀ (w : ColumnWriter) (f : Bool) (bs : List Nat),
      (w.addRow f bs).columnChunkIndex = w.columnChunkIndex) ∧
    (∀ w : ColumnWriter, w.close.columnChunkIndex = w.columnChunkIndex) ∧
    (∀ w : ColumnWriter,
      (w.flush align).columnChunkIndex.pixelPositions.length =
          (if w.curPixelEleIndex > 0 then
            w.columnChunkIndex.pixelPositions.length + 1
          else w.columnChunkIndex.pixelPositions.length) ∧
        (w.flush align).columnChunkIndex.pixelStatistics.length =
          (if w.curPixelEleIndex > 0 then
            w.columnChunkIndex.pixelStatistics.length + 1
          else w.columnChunkIndex.pixelStatistics.length)) ∧
    (∀ w : ColumnWriter,
      w.reset.columnChunkIndex.pixelPositions = [] ∧
        w.reset.columnChunkIndex.pixelStatistics = []) := by
  refine ⟨?_, ?_, ?_, ?_, ?_, ?_⟩
  · intro stride el bo ops
    exact aux_runOps_parity align ops _ rfl
  · intro w
    constructor
    · rw [ColumnWriter.aux_newPixel_pixelPositions]
      simp
    · rw [ColumnWriter.aux_newPixel_pixelStatistics]
      simp
  · intro w f bs; rfl
  · intro w; rfl
  · intro w
    constructor
    · rw [ColumnWriter.aux_flush_pixelPositions,
        ColumnWriter.aux_flushPre_pixelPositions]
      by_cases hc : w.curPixelEleIndex > 0 <;> simp [hc]
    · rw [ColumnWriter.aux_flush_pixelStatistics,
        ColumnWriter.aux_flushPre_pixelStatistics]
      by_cases hc : w.curPixelEleIndex > 0 <;> simp [hc]
  · intro w; exact ⟨rfl, rfl⟩

/-- C9: a `newPixel` on a pixel with `hasNull` set turns on the
chunk-level recorder's null flag; the flag is monotone over any reset-free
run; and in a run from a fresh writer in which no null row ever arrives,
the chunk-level recorder never reports a null. -/
theorem c9_chunk_hasNull (align : Nat) :
    (∀ w : ColumnWriter, w.hasNull = true →
      w.newPixel.columnChunkStatRecorder.hasNull = true) ∧
    (∀ (w : ColumnWriter) (ops : List Op), Op.reset ∉ ops →
      w.columnChunkStatRecorder.hasNull = true →
      (runOps align ops w).columnChunkStatRecorder.hasNull = true) ∧
    (∀ (stride el : Nat) (bo : ByteOrder) (ops : List Op),
      (∀ bs, Op.addRow true bs ∉ ops) →
      (runOps align ops (ColumnWriter.init align stride el
          bo)).columnChunkStatRecorder.hasNull = false) := by
  refine ⟨?_, ?_, ?_⟩
  · intro w h
    rw [ColumnWriter.aux_newPixel_chunkRecorder,
      ColumnWriter.aux_newPixelPacked_recorder]
    simp [h, StatRecorder.merge, StatRecorder.setHasNull]
  · intro w ops hmem h
    exact aux_runOps_hasNull_mono align ops w hmem h
  · intro stride el bo ops hmem
    exact (aux_runOps_noNull align ops _ hmem rfl rfl rfl).1

/-- C9 witness: a pixel with a null row marks the chunk recorder; the mark
survives a later `newPixel`; and a null-free run never sets it. -/
theorem c9_chunk_hasNull_witness :
    (((ColumnWriter.init 4 2 0 ByteOrder.PIXELS_LITTLE_ENDIAN).addRow true
          [9]).hasNull = true ∧
      ((ColumnWriter.init 4 2 0 ByteOrder.PIXELS_LITTLE_ENDIAN).addRow true
          [9]).newPixel.columnChunkStatRecorder.hasNull = true) ∧
    (Op.reset ∉ [Op.addRow false [7], Op.newPixel] ∧
      (runOps 4 [Op.addRow false [7], Op.newPixel]
          (((ColumnWriter.init 4 2 0
            ByteOrder.PIXELS_LITTLE_ENDIAN).addRow true
              [9]).newPixel)).columnChunkStatRecorder.hasNull = true) ∧
    ((∀ bs, Op.addRow true bs ∉
        [Op.addRow false [7], Op.newPixel, Op.flush]) ∧
      (runOps 4 [Op.addRow false [7], Op.newPixel, Op.flush]
          (ColumnWriter.init 4 2 0
            ByteOrder.PIXELS_LITTLE_ENDIAN)).columnChunkStatRecorder.hasNull =
        false) :=
  ⟨⟨by decide, (c9_chunk_hasNull 4).1 _ (by decide)⟩,
    ⟨by decide, (c9_chunk_hasNull 4).2.1 _ _ (by decide) (by decide)⟩,
    ⟨by intro bs; simp, (c9_chunk_hasNull 4).2.2 2 0
      ByteOrder.PIXELS_LITTLE_ENDIAN _ (by intro bs; simp)⟩⟩

/-- C2: after `flush`, with a positive alignment constant the recorded
`isNullOffset` is a multiple of the alignment; the offset is the raw
pre-padding write offset plus the padding, where the padding is zero when
the raw offset is already aligned (or the constant is zero) and exactly
`align - offset % align` zero bytes otherwise; the value buffer's bytes
are the old bytes, then the padding zeros, then the bitmap bytes. -/
theorem c2_alignment (align : Nat) (w : ColumnWriter) :
    (0 < align →
      (w.flush align).columnChunkIndex.isNullOffset % align = 0) ∧
    (w.flush align).columnChunkIndex.isNullOffset =
      w.outputStream.writePos +
        (if align = 0 ∨ w.outputStream.writePos % align = 0 then 0
         else align - w.outputStream.writePos % align) ∧
    (align = 0 →
      (w.flush align).columnChunkIndex.isNullOffset =
        w.outputStream.writePos) ∧
    (w.flush align).outputStream.data =
      w.outputStream.data.take w.outputStream.writePos ++
        List.replicate
          (if align = 0 ∨ w.outputStream.writePos % align = 0 then 0
           else align - w.outputStream.writePos % align) 0 ++
        ((w.flushPre.isNullStream.data.drop
            w.flushPre.isNullStream.readPos).take
          (w.flushPre.isNullStream.writePos -
            w.flushPre.isNullStream.readPos)) := by
  have hoff := ColumnWriter.aux_flush_isNullOffset align w
  by_cases hc : align ≠ 0 ∧ w.outputStream.writePos % align ≠ 0
  · have hcnot : ¬(align = 0 ∨ w.outputStream.writePos % align = 0) := by
      tauto
    rw [if_pos hc] at hoff
    refine ⟨?_, ?_, ?_, ?_⟩
    · intro hpos
      rw [hoff]
      have hlt : w.outputStream.writePos % align < align :=
        Nat.mod_lt _ hpos
      have hdm : align * (w.outputStream.writePos / align) +
          w.outputStream.writePos % align = w.outputStream.writePos :=
        Nat.div_add_mod _ _
      have heq : w.outputStream.writePos +
          (align - w.outputStream.writePos % align) =
          align * (w.outputStream.writePos / align + 1) := by
        rw [Nat.mul_succ]
        omega
      rw [heq, Nat.mul_mod_right]
    · rw [hoff, if_neg hcnot]
    · intro h0; exact absurd h0 hc.1
    · rw [ColumnWriter.aux_flush_eq]
      simp only [if_pos hc, if_neg hcnot, ByteBuffer.putBytes,
        ColumnWriter.aux_flushPre_outputStream]
      rw [List.take_of_length_le]
      simp only [List.length_append, List.length_take,
        List.length_replicate]
      omega
  · have hcor : align = 0 ∨ w.outputStream.writePos % align = 0 := by
      tauto
    rw [if_neg hc] at hoff
    refine ⟨?_, ?_, ?_, ?_⟩
    · intro hpos
      rw [hoff]
      rcases hcor with h0 | hm
      · omega
      · exact hm
    · rw [hoff, if_pos hcor]
      omega
    · intro h0; rw [hoff]
    · rw [ColumnWriter.aux_flush_eq]
      simp only [if_neg hc, if_pos hcor, ByteBuffer.putBytes,
        List.replicate_zero, List.append_nil, ColumnWriter.aux_flushPre_outputStream]

/-- C2 witness: three unaligned value bytes with alignment 4 produce one
padding byte and an `isNullOffset` of 4. -/
theorem c2_alignment_witness :
    0 < 4 ∧
      ((runOps 4 [Op.addRow false [1], Op.addRow true [2], Op.newPixel,
            Op.addRow false [3]]
          (ColumnWriter.init 4 2 0
            ByteOrder.PIXELS_LITTLE_ENDIAN)).flush
          4).columnChunkIndex.isNullOffset % 4 = 0 :=
  ⟨by decide,
    (c2_alignment 4 (runOps 4 [Op.addRow false [1], Op.addRow true [2],
        Op.newPixel, Op.addRow false [3]]
      (ColumnWriter.init 4 2 0 ByteOrder.PIXELS_LITTLE_ENDIAN))).1
      (by decide)⟩

/-- C4: after `flush`, the unconsumed region of the value buffer is the
pixels' value bytes, then `0` to `align - 1` padding zeros, then the whole
unconsumed region of the null-bitmap buffer, and the recorded
`isNullOffset` is exactly the value-buffer write offset at which the
bitmap bytes were appended (the first byte of the bitmap section). -/
theorem c4_chunk_layout (align : Nat) (w : ColumnWriter)
    (hr : w.outputStream.readPos ≤ w.outputStream.writePos)
    (hw : w.outputStream.writePos ≤ w.outputStream.data.length) :
    (w.flush align).outputStream.content =
      w.outputStream.content ++
        List.replicate
          (if align = 0 ∨ w.outputStream.writePos % align = 0 then 0
           else align - w.outputStream.writePos % align) 0 ++
        w.flushPre.isNullStream.content ∧
    (w.flush align).columnChunkIndex.isNullOffset =
      w.outputStream.writePos +
        (if align = 0 ∨ w.outputStream.writePos % align = 0 then 0
         else align - w.outputStream.writePos % align) ∧
    (0 < align →
      (if align = 0 ∨ w.outputStream.writePos % align = 0 then 0
       else align - w.outputStream.writePos % align) < align) := by
  have hbm : (w.flushPre.isNullStream.data.drop
        w.flushPre.isNullStream.readPos).take
      (w.flushPre.isNullStream.writePos -
        w.flushPre.isNullStream.readPos) =
      w.flushPre.isNullStream.content := by
    rw [ByteBuffer.content, List.drop_take]
  refine ⟨?_, ColumnWriter.aux_flush_isNullOffset_pad align w, ?_⟩
  · rw [ColumnWriter.aux_flush_eq]
    by_cases hc : align ≠ 0 ∧ w.outputStream.writePos % align ≠ 0
    · have hcnot : ¬(align = 0 ∨ w.outputStream.writePos % align = 0) := by
        tauto
      simp only [if_pos hc, if_neg hcnot, ColumnWriter.aux_flushPre_outputStream]
      rw [aux_content_putBytes _ _ (by simp [ByteBuffer.putBytes]; omega)
          (by simp [ByteBuffer.putBytes, List.length_take]; omega),
        aux_content_putBytes _ _ hr hw, hbm]
    · have hcor : align = 0 ∨ w.outputStream.writePos % align = 0 := by
        tauto
      simp only [if_neg hc, if_pos hcor, List.replicate_zero,
        List.append_nil, ColumnWriter.aux_flushPre_outputStream]
      rw [aux_content_putBytes _ _ hr hw, hbm]
  · intro hpos
    by_cases hm : w.outputStream.writePos % align = 0
    · simp [hm, hpos]
    · have : ¬(align = 0 ∨ w.outputStream.writePos % align = 0) := by
        omega
      rw [if_neg this]
      have := Nat.mod_lt w.outputStream.writePos hpos
      omega

/-- C4 witness: the concrete chunk `[1,2,3]` + 1 padding zero + bitmap
byte `2`, with `isNullOffset = 4`. -/
theorem c4_chunk_layout_witness :
    (runOps 4 [Op.addRow false [1], Op.addRow true [2], Op.newPixel,
          Op.addRow false [3]]
        (ColumnWriter.init 4 2 0
          ByteOrder.PIXELS_LITTLE_ENDIAN)).outputStream.readPos ≤
      (runOps 4 [Op.addRow false [1], Op.addRow true [2], Op.newPixel,
          Op.addRow false [3]]
        (ColumnWriter.init 4 2 0
          ByteOrder.PIXELS_LITTLE_ENDIAN)).outputStream.writePos ∧
    ((runOps 4 [Op.addRow false [1], Op.addRow true [2], Op.newPixel,
          Op.addRow false [3]]
        (ColumnWriter.init 4 2 0
          ByteOrder.PIXELS_LITTLE_ENDIAN)).flush 4).outputStream.content =
      (runOps 4 [Op.addRow false [1], Op.addRow true [2], Op.newPixel,
          Op.addRow false [3]]
        (ColumnWriter.init 4 2 0
          ByteOrder.PIXELS_LITTLE_ENDIAN)).outputStream.content ++
        List.replicate
          (if (4 : Nat) = 0 ∨
              (runOps 4 [Op.addRow false [1], Op.addRow true [2],
                  Op.newPixel, Op.addRow false [3]]
                (ColumnWriter.init 4 2 0
                  ByteOrder.PIXELS_LITTLE_ENDIAN)).outputStream.writePos %
                4 = 0 then 0
           else 4 -
              (runOps 4 [Op.addRow false [1], Op.addRow true [2],
                  Op.newPixel, Op.addRow false [3]]
                (ColumnWriter.init 4 2 0
                  ByteOrder.PIXELS_LITTLE_ENDIAN)).outputStream.writePos %
                4) 0 ++
        (runOps 4 [Op.addRow false [1], Op.addRow true [2], Op.newPixel,
            Op.addRow false [3]]
          (ColumnWriter.init 4 2 0
            ByteOrder.PIXELS_LITTLE_ENDIAN)).flushPre.isNullStream.content :=
  ⟨by decide,
    ((c4_chunk_layout 4 (runOps 4 [Op.addRow false [1], Op.addRow true [2],
        Op.newPixel, Op.addRow false [3]]
      (ColumnWriter.init 4 2 0 ByteOrder.PIXELS_LITTLE_ENDIAN)))
      (by decide) (by decide)).1⟩

/-- C6: when a partial pixel is pending (`curPixelEleIndex > 0`), `flush`
performs the `newPixel` transition — the partial pixel's position and
serialized statistics are appended to the index, its statistics are merged
into the chunk recorder, and the row counter is zeroed; when
`curPixelEleIndex = 0`, no `newPixel` transition happens: the index
sequences and the chunk recorder are untouched. -/
theorem c6_flush_partial_pixel (align : Nat) (w : ColumnWriter) :
    (w.curPixelEleIndex > 0 →
      (w.flush align).columnChunkIndex.pixelPositions =
          w.columnChunkIndex.pixelPositions ++ [w.lastPixelPosition] ∧
        (w.flush align).columnChunkIndex.pixelStatistics =
          w.columnChunkIndex.pixelStatistics ++
            [⟨(if w.hasNull then w.pixelStatRecorder.setHasNull
               else w.pixelStatRecorder).serialize⟩] ∧
        (w.flush align).columnChunkStatRecorder =
          w.columnChunkStatRecorder.merge
            (if w.hasNull then w.pixelStatRecorder.setHasNull
             else w.pixelStatRecorder) ∧
        (w.flush align).curPixelEleIndex = 0) ∧
    (w.curPixelEleIndex = 0 →
      (w.flush align).columnChunkIndex.pixelPositions =
          w.columnChunkIndex.pixelPositions ∧
        (w.flush align).columnChunkIndex.pixelStatistics =
          w.columnChunkIndex.pixelStatistics ∧
        (w.flush align).columnChunkStatRecorder =
          w.columnChunkStatRecorder) := by
  constructor
  · intro h
    refine ⟨?_, ?_, ?_, ?_⟩
    · rw [ColumnWriter.aux_flush_pixelPositions,
        ColumnWriter.aux_flushPre_pixelPositions, if_pos h]
    · rw [ColumnWriter.aux_flush_pixelStatistics,
        ColumnWriter.aux_flushPre_pixelStatistics, if_pos h,
        ColumnWriter.aux_newPixelPacked_recorder]
    · rw [ColumnWriter.aux_flush_chunkRecorder,
        ColumnWriter.aux_flushPre_chunkRecorder, if_pos h,
        ColumnWriter.aux_newPixelPacked_recorder]
    · rw [ColumnWriter.aux_flush_curPixelEleIndex,
        ColumnWriter.aux_flushPre_curPixelEleIndex, if_pos h]
  · intro h
    have h' : ¬ w.curPixelEleIndex > 0 := by omega
    refine ⟨?_, ?_, ?_⟩
    · rw [ColumnWriter.aux_flush_pixelPositions,
        ColumnWriter.aux_flushPre_pixelPositions, if_neg h']
    · rw [ColumnWriter.aux_flush_pixelStatistics,
        ColumnWriter.aux_flushPre_pixelStatistics, if_neg h']
    · rw [ColumnWriter.aux_flush_chunkRecorder,
        ColumnWriter.aux_flushPre_chunkRecorder, if_neg h']

/-- C6 witness: a one-row pending pixel is indexed by `flush`; a writer
with no pending rows leaves the index sequences untouched. -/
theorem c6_flush_partial_pixel_witness :
    (((ColumnWriter.init 4 2 0 ByteOrder.PIXELS_LITTLE_ENDIAN).addRow false
          [3]).curPixelEleIndex > 0 ∧
      (((ColumnWriter.init 4 2 0 ByteOrder.PIXELS_LITTLE_ENDIAN).addRow
            false [3]).flush 4).columnChunkIndex.pixelPositions =
        ((ColumnWriter.init 4 2 0 ByteOrder.PIXELS_LITTLE_ENDIAN).addRow
            false [3]).columnChunkIndex.pixelPositions ++
          [((ColumnWriter.init 4 2 0 ByteOrder.PIXELS_LITTLE_ENDIAN).addRow
              false [3]).lastPixelPosition]) ∧
    ((ColumnWriter.init 4 2 0
          ByteOrder.PIXELS_LITTLE_ENDIAN).curPixelEleIndex = 0 ∧
      ((ColumnWriter.init 4 2 0 ByteOrder.PIXELS_LITTLE_ENDIAN).flush
          4).columnChunkIndex.pixelPositions =
        (ColumnWriter.init 4 2 0
          ByteOrder.PIXELS_LITTLE_ENDIAN).columnChunkIndex.pixelPositions) :=
  ⟨⟨by decide,
      ((c6_flush_partial_pixel 4 ((ColumnWriter.init 4 2 0
        ByteOrder.PIXELS_LITTLE_ENDIAN).addRow false [3])).1
        (by decide)).1⟩,
    ⟨by decide,
      ((c6_flush_partial_pixel 4 (ColumnWriter.init 4 2 0
        ByteOrder.PIXELS_LITTLE_ENDIAN)).2 (by decide)).1⟩⟩

/-- C7 counterexample: `reset` calls the protobuf `Clear()` on the index
record, which resets every field — including the three chunk-wide flags —
to its default.  A writer constructed little-endian with alignment 4 has
`littleEndian = true` and `isNullAlignment = 4` in its index, but after
`reset` both flags are back at their protobuf defaults (`false` / `0`),
not their construction-time values, refuting the claim. -/
theorem c7_counterexample :
    (ColumnWriter.init 4 2 0
        ByteOrder.PIXELS_LITTLE_ENDIAN).columnChunkIndex.littleEndian =
      true ∧
    (ColumnWriter.init 4 2 0
        ByteOrder.PIXELS_LITTLE_ENDIAN).columnChunkIndex.isNullAlignment =
      4 ∧
    (ColumnWriter.init 4 2 0
        ByteOrder.PIXELS_LITTLE_ENDIAN).reset.columnChunkIndex.littleEndian =
      false ∧
    (ColumnWriter.init 4 2 0
        ByteOrder.PIXELS_LITTLE_ENDIAN).reset.columnChunkIndex.isNullAlignment =
      0 := by
  decide

/-- C7 (amended): after `reset`, `lastPixelPosition` and
`curPixelPosition` are zero, the index record is cleared to a
default-constructed record — its chunk-wide flags `littleEndian`,
`nullsPadding`, `isNullAlignment` included, which therefore do NOT retain
their construction-time values — the standalone chunk-stat record is
cleared, both statistics recorders are empty, and both output buffers'
cursors are rewound to the start with their storage retained. -/
theorem c7_reset_state (w : ColumnWriter) :
    w.reset.lastPixelPosition = 0 ∧
    w.reset.curPixelPosition = 0 ∧
    w.reset.columnChunkIndex = ColumnChunkIndex.defaultIndex ∧
    w.reset.columnChunkStat = StatisticRecord.default ∧
    w.reset.pixelStatRecorder = StatRecorder.empty ∧
    w.reset.columnChunkStatRecorder = StatRecorder.empty ∧
    w.reset.outputStream.readPos = 0 ∧
    w.reset.outputStream.writePos = 0 ∧
    w.reset.outputStream.data = w.outputStream.data ∧
    w.reset.isNullStream.readPos = 0 ∧
    w.reset.isNullStream.writePos = 0 ∧
    w.reset.isNullStream.data = w.isNullStream.data :=
  ⟨rfl, rfl, rfl, rfl, rfl, rfl, rfl, rfl, rfl, rfl, rfl, rfl⟩

/-- C8: after `reset` the index has no pixel positions or statistics,
`isNullOffset` is zero, both recorders report empty state, and a second
`reset` produces exactly the same writer state as the first. -/
theorem c8_reset_idempotent (w : ColumnWriter) :
    w.reset.columnChunkIndex.pixelPositions = [] ∧
    w.reset.columnChunkIndex.pixelStatistics = [] ∧
    w.reset.columnChunkIndex.isNullOffset = 0 ∧
    w.reset.pixelStatRecorder.hasNull = false ∧
    w.reset.columnChunkStatRecorder.hasNull = false ∧
    w.reset.reset = w.reset :=
  ⟨rfl, rfl, rfl, rfl, rfl, rfl⟩

/-- C10: `getColumnChunkContent` and `getColumnChunkSize` are embedded as
pure functions of the writer (the C++ methods are `const`, modifying no
state, so repeated calls agree by construction); the content is exactly
the value buffer's unconsumed region between the read and write cursors,
and the size is exactly that region's length. -/
theorem c10_observers (w : ColumnWriter)
    (hw : w.outputStream.writePos ≤ w.outputStream.data.length) :
    w.getColumnChunkContent = w.outputStream.content ∧
    w.getColumnChunkSize = w.getColumnChunkContent.length := by
  refine ⟨rfl, ?_⟩
  simp only [ColumnWriter.getColumnChunkSize,
    ColumnWriter.getColumnChunkContent, List.length_drop, List.length_take]
  omega

/-- C10 witness: the flushed concrete chunk has content `[1,2,3,0,2]` and
size 5. -/
theorem c10_observers_witness :
    ((runOps 4 [Op.addRow false [1], Op.addRow true [2], Op.newPixel,
          Op.addRow false [3], Op.flush]
        (ColumnWriter.init 4 2 0
          ByteOrder.PIXELS_LITTLE_ENDIAN)).outputStream.writePos ≤
      (runOps 4 [Op.addRow false [1], Op.addRow true [2], Op.newPixel,
          Op.addRow false [3], Op.flush]
        (ColumnWriter.init 4 2 0
          ByteOrder.PIXELS_LITTLE_ENDIAN)).outputStream.data.length) ∧
    (runOps 4 [Op.addRow false [1], Op.addRow true [2], Op.newPixel,
        Op.addRow false [3], Op.flush]
      (ColumnWriter.init 4 2 0
        ByteOrder.PIXELS_LITTLE_ENDIAN)).getColumnChunkSize =
      ((runOps 4 [Op.addRow false [1], Op.addRow true [2], Op.newPixel,
          Op.addRow false [3], Op.flush]
        (ColumnWriter.init 4 2 0
          ByteOrder.PIXELS_LITTLE_ENDIAN)).getColumnChunkContent).length :=
  ⟨by decide,
    (c10_observers (runOps 4 [Op.addRow false [1], Op.addRow true [2],
        Op.newPixel, Op.addRow false [3], Op.flush]
      (ColumnWriter.init 4 2 0 ByteOrder.PIXELS_LITTLE_ENDIAN))
      (by decide)).2⟩

end Pixels
